import Mathlib

/-!
Shallow embedding of the wekactl autoscaling decision engine
(`internal/aws/lambdas/scale/scale.go` and
`internal/aws/lambdas/protocol`), together with theorems checking the
natural-language specification against it.

Conventions of the embedding:
* Go `int` values become Lean `Int`; drive counts become `Nat` where the
  source counts list elements.
* `time.Time` / `time.Duration` become `Int`, measured in minutes; the
  current instant is an explicit `now` parameter, and `time.Since t`
  becomes `now - t`.
* Go maps become lists: iteration order, which Go randomizes, is the list
  order of the environment, made an explicit input.
* The RPC pool is modelled by an environment `RpcEnv` fixing the response
  of every query and the result of every mutating call; the engine returns
  the trace of mutating calls it issued alongside its response.
-/

namespace Wekactl

/-- Modelled from the spec: `wekactl/internal/lib/math.Max` on integers
(the repository's integer-math helper library is not part of the source
snapshot; the spec's formula `max(D, max(H + U + D − T, min(2 − D, U)))`
fixes its meaning). -/
def libMax (a b : Int) : Int := if a > b then a else b

/-- Modelled from the spec: `wekactl/internal/lib/math.Min` on integers. -/
def libMin (a b : Int) : Int := if a < b then a else b

/-- Modelled from the spec: `wekactl/internal/lib/strings.AnyOf` — whether
the target string equals any of the candidate strings. -/
def AnyOf (target : String) (candidates : List String) : Bool :=
  candidates.contains target

/-- `weka.Drive`: UUID, owning host id (or orphan sentinel −1), health
status, and the "should-be-active" target flag. -/
structure Drive where
  uuid : String
  hostId : Int
  status : String
  shouldBeActive : Bool
deriving DecidableEq, Repr

/-- `weka.Node`. `isManagement` is modelled from the spec: the composite
node id encodes whether the node has the management role
(`NodeId.IsManagement` lives in the `weka` library, outside the source
snapshot). `lastFencingTime` is in minutes. -/
structure Node where
  isManagement : Bool
  hostId : Int
  status : String
  lastFencingTime : Int
deriving DecidableEq, Repr

/-- `weka.Host` as used by scale.go: cloud instance id (`Aws.InstanceId`),
private IP, lifecycle state, operational status, added time and time of
last state change (minutes). -/
structure Host where
  instanceId : String
  hostIp : String
  state : String
  status : String
  addedTime : Int
  stateChangedTime : Int
deriving DecidableEq, Repr

/-- `protocol.HgInstance`: one cloud-group member. -/
structure HgInstance where
  id : String
  privateIp : String
deriving DecidableEq, Repr

/-- `protocol.HostGroupInfoResponse`: the engine's input. -/
structure HostGroupInfoResponse where
  username : String
  password : String
  desiredCapacity : Int
  instances : List HgInstance
  backendIps : List String
  role : String
deriving DecidableEq, Repr

/-- `weka.StatusResponse` as consumed by `isAllowedToScale`. -/
structure StatusResponse where
  ioStatus : String
  upgrade : String
deriving DecidableEq, Repr

/-- `hostState`; declaration order matters, it defines the priority of
host removal (`DEACTIVATING` = 0, `UNHEALTHY` = 1, `HEALTHY` = 2). -/
inductive hostState where
  | DEACTIVATING
  | UNHEALTHY
  | HEALTHY
deriving DecidableEq, Repr

export hostState (DEACTIVATING UNHEALTHY HEALTHY)

/-- The integer value of a `hostState` (Go's iota numbering). -/
def hostState.toNat : hostState → Nat
  | DEACTIVATING => 0
  | UNHEALTHY => 1
  | HEALTHY => 2

/-- `hostInfo`: a host joined with its drives and nodes and a scale-state.
Go's zero value of `hostState` is `DEACTIVATING`; it is overwritten by
`calculateHostsState` for in-scope hosts. -/
structure hostInfo extends Host where
  id : Int
  drives : List Drive
  nodes : List Node
  scaleState : hostState
deriving DecidableEq, Repr

namespace hostInfo

/-- `hostInfo.belongsToHg`: instance-id membership in the host group. -/
def belongsToHg (host : hostInfo) (instances : List HgInstance) : Bool :=
  instances.any (fun member => host.instanceId == member.id)

/-- `hostInfo.belongsToHgIpBased`: private-IP membership in the host group. -/
def belongsToHgIpBased (host : hostInfo) (instances : List HgInstance) : Bool :=
  instances.any (fun member => host.hostIp == member.privateIp)

/-- `hostInfo.numNotHealthyDrives`: counts drives whose status is INACTIVE. -/
def numNotHealthyDrives (host : hostInfo) : Nat :=
  (host.drives.filter (fun drive => AnyOf drive.status ["INACTIVE"])).length

/-- `hostInfo.allDisksBeingRemoved`: the Go loop returns `true` iff the
host has at least one drive and none of its drives is should-be-active. -/
def allDisksBeingRemoved (host : hostInfo) : Bool :=
  !host.drives.isEmpty && host.drives.all (fun drive => !drive.shouldBeActive)

/-- `hostInfo.anyDiskBeingRemoved`: some drive is not should-be-active. -/
def anyDiskBeingRemoved (host : hostInfo) : Bool :=
  host.drives.any (fun drive => !drive.shouldBeActive)

/-- `hostInfo.allDrivesInactive`: every drive has status INACTIVE. -/
def allDrivesInactive (host : hostInfo) : Bool :=
  host.drives.all (fun drive => drive.status == "INACTIVE")

/-- `hostInfo.managementTimedOut`: some management node is DOWN with its
last fencing time more than `timeout` minutes before `now`. -/
def managementTimedOut (host : hostInfo) (timeout : Int) (now : Int) : Bool :=
  host.nodes.any (fun node =>
    node.isManagement && node.status == "DOWN" &&
      decide (now - node.lastFencingTime > timeout))

end hostInfo

/-- `unhealthyDeactivateTimeout = 120 * time.Minute`, in minutes. -/
def unhealthyDeactivateTimeout : Int := 120

/-- `backendCleanupDelay = 5 * time.Minute`, in minutes. -/
def backendCleanupDelay : Int := 5

/-- `downKickOutTimeout = 3 * time.Hour`, in minutes. -/
def downKickOutTimeout : Int := 180

/-- `calculateDeactivateTarget` from scale.go. -/
def calculateDeactivateTarget (nHealthy nUnhealthy nDeactivating desired : Int) : Int :=
  libMax nDeactivating
    (libMax (nHealthy + nUnhealthy + nDeactivating - desired)
      (libMin (2 - nDeactivating) nUnhealthy))

/-- `isAllowedToScale` from scale.go: the gate check. -/
def isAllowedToScale (status : StatusResponse) : Except String Unit :=
  if status.ioStatus ≠ "STARTED" then
    Except.error ("io status:" ++ status.ioStatus ++ ", aborting scale")
  else if status.upgrade ≠ "" then
    Except.error "upgrade is running, aborting scale"
  else
    Except.ok ()

/-- `deriveHostState` from scale.go: first matching rule wins. -/
def deriveHostState (now : Int) (host : hostInfo) : hostState :=
  if host.allDisksBeingRemoved then DEACTIVATING
  else if AnyOf host.state ["DEACTIVATING", "REMOVING", "INACTIVE"] then DEACTIVATING
  else if host.status == "DOWN" &&
      host.managementTimedOut unhealthyDeactivateTimeout now then UNHEALTHY
  else if decide (host.numNotHealthyDrives > 0) || host.anyDiskBeingRemoved then UNHEALTHY
  else HEALTHY

/-- `calculateHostsState` from scale.go, in a functional style: assigns
each host its derived scale-state. -/
def calculateHostsState (now : Int) (hosts : List hostInfo) : List hostInfo :=
  hosts.map (fun host => { host with scaleState := deriveHostState now host })

/-- `getNumToDeactivate` from scale.go: counts in-scope hosts per
scale-state and applies `calculateDeactivateTarget`. -/
def getNumToDeactivate (hostInfoList : List hostInfo) (desired : Int) : Int :=
  let nHealthy := (hostInfoList.filter (fun host => host.scaleState == HEALTHY)).length
  let nUnhealthy := (hostInfoList.filter (fun host => host.scaleState == UNHEALTHY)).length
  let nDeactivating := (hostInfoList.filter (fun host => host.scaleState == DEACTIVATING)).length
  calculateDeactivateTarget nHealthy nUnhealthy nDeactivating desired

/-- The comparison closure passed to `sort.Slice` in `Handler`: ascending
scale-state, then descending count of unhealthy drives, then ascending
added time. -/
def hostLess (a b : hostInfo) : Bool :=
  if a.scaleState.toNat < b.scaleState.toNat then true
  else if b.scaleState.toNat < a.scaleState.toNat then false
  else if b.numNotHealthyDrives < a.numNotHealthyDrives then true
  else if a.numNotHealthyDrives < b.numNotHealthyDrives then false
  else decide (a.addedTime < b.addedTime)

/-- Insert a host into a list sorted by `hostLess`. -/
def insertHost (x : hostInfo) : List hostInfo → List hostInfo
  | [] => [x]
  | y :: ys => if hostLess x y then x :: y :: ys else y :: insertHost x ys

/-- The `sort.Slice` call of `Handler`, realized as insertion sort with
the removal-priority comparator. -/
def sortHosts : List hostInfo → List hostInfo
  | [] => []
  | x :: xs => insertHost x (sortHosts xs)

/-- `selectInstanceByIp` from scale.go: first group instance with the
given private IP. -/
def selectInstanceByIp (ip : String) (instances : List HgInstance) : Option HgInstance :=
  instances.find? (fun i => i.privateIp == ip)

/-- `protocol.ScaleResponseHost`. -/
structure ScaleResponseHost where
  instanceId : String
  state : String
  addedTime : Int
  hostId : Int
deriving DecidableEq, Repr

/-- `protocol.ScaleResponse`: the engine's output. -/
structure ScaleResponse where
  hosts : List ScaleResponseHost
  toTerminate : List HgInstance
  transientErrors : List String
deriving DecidableEq, Repr

/-- One mutating RPC of the lifecycle phase, with its payload. -/
inductive MutatingCall where
  | deactivateDrives (driveUuids : List String)
  | deactivateHosts (hostIds : List Int)
  | removeHost (hostId : Int)
  | removeDrive (driveUuids : List String)
deriving DecidableEq, Repr

/-- The tag under which a failure of each mutating call is recorded in the
transient-error list (the `caller` argument of `AddTransientError`). -/
def opTag : MutatingCall → String
  | .deactivateDrives _ => "deactivateDrive"
  | .deactivateHosts _ => "deactivateHost"
  | .removeHost _ => "removeInactive"
  | .removeDrive _ => "removeDrive"

/-- The management plane as seen through the RPC pool for one tick: the
result of each query, and the result of each mutating call. An
`Except.error` models exhaustion of all candidate endpoints for that
call. -/
structure RpcEnv where
  statusResp : Except String StatusResponse
  hostListResp : Except String (List (Int × Host))
  driveListResp : Except String (List Drive)
  nodeListResp : Except String (List Node)
  mutateResult : MutatingCall → Except String Unit

/-- The snapshot phase of `Handler`, fail-fast: status query, gate check,
host list, drive list (backend role only), node list. -/
def getSnapshot (env : RpcEnv) (info : HostGroupInfoResponse) :
    Except String (List (Int × Host) × List Drive × List Node) :=
  match env.statusResp with
  | .error e => .error e
  | .ok systemStatus =>
    match isAllowedToScale systemStatus with
    | .error e => .error e
    | .ok _ =>
      match env.hostListResp with
      | .error e => .error e
      | .ok hostsApiList =>
        match (if info.role == "backend" then env.driveListResp else .ok []) with
        | .error e => .error e
        | .ok driveApiList =>
          match env.nodeListResp with
          | .error e => .error e
          | .ok nodeApiList => .ok (hostsApiList, driveApiList, nodeApiList)

/-- Snapshot assembly in `Handler`: each host joined with the drives and
nodes whose owning host id matches; drives and nodes without a matching
host are excluded. `scaleState` starts at Go's zero value. -/
def buildHosts (hostsApiList : List (Int × Host)) (driveApiList : List Drive)
    (nodeApiList : List Node) : List hostInfo :=
  hostsApiList.map (fun p =>
    { toHost := p.2
      id := p.1
      drives := driveApiList.filter (fun drive => drive.hostId == p.1)
      nodes := nodeApiList.filter (fun node => node.hostId == p.1)
      scaleState := DEACTIVATING })

/-- Membership test for `hostsList` in `Handler`: state not INACTIVE, and
either instance-id membership or, for DOWN hosts, IP-based membership. -/
def isInScope (info : HostGroupInfoResponse) (host : hostInfo) : Bool :=
  host.state != "INACTIVE" &&
    (host.belongsToHg info.instances ||
      (host.status == "DOWN" && host.belongsToHgIpBased info.instances))

/-- Membership test for `inactiveHosts` in `Handler`: INACTIVE state and
either IP-based membership or, for the backend role, an inactive state
older than the cleanup delay. -/
def isInactiveTarget (now : Int) (info : HostGroupInfoResponse) (host : hostInfo) : Bool :=
  host.state == "INACTIVE" &&
    (host.belongsToHgIpBased info.instances ||
      (info.role == "backend" &&
        decide (now - host.stateChangedTime > backendCleanupDelay)))

/-- Membership test for `downHosts` in `Handler`: backend role, DOWN
status, state not INACTIVE, management node down past the kick-out
timeout. -/
def isDownTarget (now : Int) (info : HostGroupInfoResponse) (host : hostInfo) : Bool :=
  host.status == "DOWN" && info.role == "backend" && host.state != "INACTIVE" &&
    host.managementTimedOut downKickOutTimeout now

/-- `removeDrive` from scale.go: issues the remove-drive call; a failure
becomes a tagged transient error. Returns (errors, calls issued). -/
def removeDriveCall (env : RpcEnv) (drive : Drive) : List String × List MutatingCall :=
  let c := MutatingCall.removeDrive [drive.uuid]
  match env.mutateResult c with
  | .ok _ => ([], [c])
  | .error e => (["removeDrive:" ++ e], [c])

/-- The drive-removal loop at the end of each `removeInactive` iteration. -/
def removeDrivesOf (env : RpcEnv) : List Drive → List String × List MutatingCall
  | [] => ([], [])
  | drive :: rest =>
    let head := removeDriveCall env drive
    let tail := removeDrivesOf env rest
    (head.1 ++ tail.1, head.2 ++ tail.2)

/-- One iteration of `removeInactive`: remove-host call; on failure a
tagged transient error and `continue`; on success the matching group
instance (if any) becomes a terminate candidate and the host's drives are
removed. Returns (errors, terminate candidates, calls issued). -/
def removeInactiveHost (env : RpcEnv) (instances : List HgInstance) (host : hostInfo) :
    List String × List HgInstance × List MutatingCall :=
  let c := MutatingCall.removeHost host.id
  match env.mutateResult c with
  | .error e => (["removeInactive:" ++ e], [], [c])
  | .ok _ =>
    let term := match selectInstanceByIp host.hostIp instances with
      | some i => [i]
      | none => []
    let d := removeDrivesOf env host.drives
    (d.1, term, c :: d.2)

/-- `removeInactive` from scale.go over the inactive-host list. -/
def removeInactive (env : RpcEnv) (hosts : List hostInfo) (instances : List HgInstance) :
    List String × List HgInstance × List MutatingCall :=
  match hosts with
  | [] => ([], [], [])
  | host :: rest =>
    let x := removeInactiveHost env instances host
    let r := removeInactive env rest instances
    (x.1 ++ r.1, x.2.1 ++ r.2.1, x.2.2 ++ r.2.2)

/-- `removeOldDrives` from scale.go: removes every drive with the orphan
sentinel host id −1 and INACTIVE status. -/
def removeOldDrives (env : RpcEnv) : List Drive → List String × List MutatingCall
  | [] => ([], [])
  | drive :: rest =>
    let head :=
      if drive.hostId == -1 && drive.status == "INACTIVE" then removeDriveCall env drive
      else ([], [])
    let tail := removeOldDrives env rest
    (head.1 ++ tail.1, head.2 ++ tail.2)

/-- The drive loop of the `deactivateHost` closure: a deactivate-drives
call for every drive still should-be-active. -/
def deactivateDrivesOf (env : RpcEnv) : List Drive → List String × List MutatingCall
  | [] => ([], [])
  | drive :: rest =>
    let head :=
      if drive.shouldBeActive then
        let c := MutatingCall.deactivateDrives [drive.uuid]
        match env.mutateResult c with
        | .ok _ => ([], [c])
        | .error e => (["deactivateDrive:" ++ e], [c])
      else ([], [])
    let tail := deactivateDrivesOf env rest
    (head.1 ++ tail.1, head.2 ++ tail.2)

/-- The `deactivateHost` closure in `Handler`: deactivate each
should-be-active drive, then, if all drives are inactive, deactivate the
host itself. -/
def deactivateHost (env : RpcEnv) (host : hostInfo) : List String × List MutatingCall :=
  let dr := deactivateDrivesOf env host.drives
  let hostPart :=
    if host.allDrivesInactive then
      let c := MutatingCall.deactivateHosts [host.id]
      match env.mutateResult c with
      | .ok _ => ([], [c])
      | .error e => (["deactivateHost:" ++ e], [c])
    else ([], [])
  (dr.1 ++ hostPart.1, dr.2 ++ hostPart.2)

/-- The two deactivation loops of `Handler`, over the selected prefix of
the sorted list followed by the forced-down hosts. -/
def deactivatePhase (env : RpcEnv) : List hostInfo → List String × List MutatingCall
  | [] => ([], [])
  | host :: rest =>
    let x := deactivateHost env host
    let r := deactivatePhase env rest
    (x.1 ++ r.1, x.2 ++ r.2)

/-- The sorted in-scope host list of `Handler`: filter to scope, derive
scale-states, sort by removal priority. -/
def inScopeList (now : Int) (info : HostGroupInfoResponse)
    (hostsApiList : List (Int × Host)) (driveApiList : List Drive)
    (nodeApiList : List Node) : List hostInfo :=
  sortHosts (calculateHostsState now
    ((buildHosts hostsApiList driveApiList nodeApiList).filter (isInScope info)))

/-- `Handler` from scale.go: snapshot, classification, planning, lifecycle
execution, response assembly. Returns the response (or the fatal error)
and the trace of mutating calls issued. -/
def Handler (now : Int) (env : RpcEnv) (info : HostGroupInfoResponse) :
    Except String ScaleResponse × List MutatingCall :=
  match getSnapshot env info with
  | .error e => (.error e, [])
  | .ok (hostsApiList, driveApiList, nodeApiList) =>
    let hosts := buildHosts hostsApiList driveApiList nodeApiList
    let hostsList := inScopeList now info hostsApiList driveApiList nodeApiList
    let inactiveHosts := hosts.filter (isInactiveTarget now info)
    let downHosts := hosts.filter (isDownTarget now info)
    let ri := removeInactive env inactiveHosts info.instances
    let ro := removeOldDrives env driveApiList
    let numToDeactivate := getNumToDeactivate hostsList info.desiredCapacity
    let da := deactivatePhase env (hostsList.take numToDeactivate.toNat ++ downHosts)
    let response : ScaleResponse :=
      { hosts := hostsList.map (fun host =>
          { instanceId := host.instanceId
            state := host.state
            addedTime := host.addedTime
            hostId := host.id })
        toTerminate := ri.2.1
        transientErrors := ri.1 ++ ro.1 ++ da.1 }
    (.ok response, ri.2.2 ++ ro.2 ++ da.2)

/-! ## Helper lemmas -/

theorem libMax_eq_max (a b : Int) : libMax a b = max a b := by
  rw [libMax, max_def]
  split_ifs <;> omega

theorem libMin_eq_min (a b : Int) : libMin a b = min a b := by
  rw [libMin, min_def]
  split_ifs <;> omega

theorem getNumToDeactivate_eq (hosts : List hostInfo) (desired : Int) :
    getNumToDeactivate hosts desired =
      calculateDeactivateTarget
        ((hosts.filter (fun host => host.scaleState == HEALTHY)).length)
        ((hosts.filter (fun host => host.scaleState == UNHEALTHY)).length)
        ((hosts.filter (fun host => host.scaleState == DEACTIVATING)).length)
        desired := rfl

theorem scaleState_counts (hosts : List hostInfo) :
    (hosts.filter (fun host => host.scaleState == HEALTHY)).length
      + (hosts.filter (fun host => host.scaleState == UNHEALTHY)).length
      + (hosts.filter (fun host => host.scaleState == DEACTIVATING)).length
      = hosts.length := by
  induction hosts with
  | nil => rfl
  | cons h t ih =>
    rcases hh : h.scaleState <;>
      simp [List.filter_cons, hh] <;> omega

/-- Concrete example host used to exercise the sorting comparator: all
fields equal except the scale-state. -/
def exHost (s : hostState) : hostInfo :=
  { instanceId := "i-0", hostIp := "10.0.0.1", state := "ACTIVE", status := "UP",
    addedTime := 0, stateChangedTime := 0, id := 0, drives := [], nodes := [],
    scaleState := s }

/-- The removal-priority order as the spec words it: ascending
scale-state, then descending unhealthy-drive count, then ascending added
time, lexicographically. -/
def priorityKeyLt (a b : hostInfo) : Prop :=
  a.scaleState.toNat < b.scaleState.toNat ∨
    (a.scaleState.toNat = b.scaleState.toNat ∧
      (b.numNotHealthyDrives < a.numNotHealthyDrives ∨
        (a.numNotHealthyDrives = b.numNotHealthyDrives ∧ a.addedTime < b.addedTime)))

/-! ## Claims about the deactivation planner -/

/-- C1: for all H, U, D, T the deactivation target equals
`max(D, max(H + U + D − T, min(2 − D, U)))`; in particular it is 1 on
(5, 1, 0, 5) and 3 on (3, 3, 1, 4). -/
theorem calculateDeactivateTarget_closed_form :
    (∀ H U D T : Int, calculateDeactivateTarget H U D T =
      max D (max (H + U + D - T) (min (2 - D) U))) ∧
    calculateDeactivateTarget 5 1 0 5 = 1 ∧
    calculateDeactivateTarget 3 3 1 4 = 3 := by
  refine ⟨fun H U D T => ?_, by decide, by decide⟩
  rw [calculateDeactivateTarget, libMax_eq_max, libMax_eq_max, libMin_eq_min]

/-- C4: the deactivation target is at least D and is monotonically
non-decreasing in U. -/
theorem calculateDeactivateTarget_ge_mono (H U U' D T : Int) (h : U ≤ U') :
    calculateDeactivateTarget H U D T ≥ D ∧
    calculateDeactivateTarget H U D T ≤ calculateDeactivateTarget H U' D T := by
  unfold calculateDeactivateTarget libMax libMin
  split_ifs <;> omega

/-- Witness for C4 at H=3, U=1, U'=2, D=1, T=4. -/
theorem calculateDeactivateTarget_ge_mono_witness :
    calculateDeactivateTarget 3 1 1 4 ≥ 1 ∧
    calculateDeactivateTarget 3 1 1 4 ≤ calculateDeactivateTarget 3 2 1 4 :=
  calculateDeactivateTarget_ge_mono 3 1 2 1 4 (by decide)

/-- C10: with a non-negative desired capacity the number of hosts to
deactivate never exceeds the length of the in-scope host list, so the
prefix selection is in bounds; the bound fails for a negative desired
capacity. -/
theorem getNumToDeactivate_le_length (hosts : List hostInfo) (desired : Int)
    (hdes : 0 ≤ desired) :
    getNumToDeactivate hosts desired ≤ (hosts.length : Int) ∧
    ¬ (calculateDeactivateTarget 0 0 0 (-1) ≤ 0 + 0 + 0) := by
  refine ⟨?_, by decide⟩
  have key : ∀ nH nU nD : Nat,
      calculateDeactivateTarget nH nU nD desired ≤ (nH : Int) + nU + nD := by
    intro nH nU nD
    unfold calculateDeactivateTarget libMax libMin
    split_ifs <;> omega
  rw [getNumToDeactivate_eq]
  have hsum := scaleState_counts hosts
  have := key ((hosts.filter (fun host => host.scaleState == HEALTHY)).length)
    ((hosts.filter (fun host => host.scaleState == UNHEALTHY)).length)
    ((hosts.filter (fun host => host.scaleState == DEACTIVATING)).length)
  omega

/-- Witness for C10 on the empty host list with desired capacity 0. -/
theorem getNumToDeactivate_le_length_witness :
    getNumToDeactivate [] 0 ≤ (([] : List hostInfo).length : Int) ∧
    ¬ (calculateDeactivateTarget 0 0 0 (-1) ≤ 0 + 0 + 0) :=
  getNumToDeactivate_le_length [] 0 (by decide)

/-! ## Claims about the host classifier and the priority order -/

/-- C3: the comparator is exactly the lexicographic order on ascending
scale-state, descending unhealthy-drive count, ascending added time; and
three hosts differing only in state, given as [healthy, unhealthy,
deactivating], sort to [deactivating, unhealthy, healthy]. -/
theorem hostLess_priority_order :
    (∀ a b : hostInfo, hostLess a b = true ↔ priorityKeyLt a b) ∧
    sortHosts [exHost HEALTHY, exHost UNHEALTHY, exHost DEACTIVATING] =
      [exHost DEACTIVATING, exHost UNHEALTHY, exHost HEALTHY] := by
  constructor
  · intro a b
    unfold hostLess priorityKeyLt
    split_ifs <;> simp <;> omega
  · decide

/-- C9: a host with zero drives, state ACTIVE and status UP classifies
healthy — never deactivating. -/
theorem driveless_active_up_healthy (now : Int) (host : hostInfo)
    (hdrives : host.drives = []) (hstate : host.state = "ACTIVE")
    (hstatus : host.status = "UP") :
    deriveHostState now host = HEALTHY ∧ deriveHostState now host ≠ DEACTIVATING := by
  have hres : deriveHostState now host = HEALTHY := by
    unfold deriveHostState hostInfo.allDisksBeingRemoved hostInfo.numNotHealthyDrives
      hostInfo.anyDiskBeingRemoved
    simp [hdrives, hstate, hstatus, AnyOf]
  exact ⟨hres, by simp [hres]⟩

theorem AnyOf_iff (s : String) (l : List String) : AnyOf s l = true ↔ s ∈ l := by
  simp [AnyOf]

theorem allDisksBeingRemoved_iff (host : hostInfo) :
    host.allDisksBeingRemoved = true ↔
      host.drives ≠ [] ∧ ∀ d ∈ host.drives, d.shouldBeActive = false := by
  simp [hostInfo.allDisksBeingRemoved, List.isEmpty_iff, List.all_eq_true]

theorem anyDiskBeingRemoved_iff (host : hostInfo) :
    host.anyDiskBeingRemoved = true ↔ ∃ d ∈ host.drives, d.shouldBeActive = false := by
  simp [hostInfo.anyDiskBeingRemoved, List.any_eq_true]

theorem numNotHealthyDrives_pos_iff (host : hostInfo) :
    0 < host.numNotHealthyDrives ↔ ∃ d ∈ host.drives, d.status = "INACTIVE" := by
  rw [hostInfo.numNotHealthyDrives, ← List.countP_eq_length_filter, List.countP_pos_iff]
  simp [AnyOf]

theorem managementTimedOut_iff (host : hostInfo) (timeout now : Int) :
    host.managementTimedOut timeout now = true ↔
      ∃ node ∈ host.nodes, node.isManagement = true ∧ node.status = "DOWN" ∧
        now - node.lastFencingTime > timeout := by
  simp [hostInfo.managementTimedOut, List.any_eq_true, and_assoc]

/-- The scale-state derivation exactly as the claim words it, first
matching rule winning: deactivating when every drive (of at least one) is
marked should-be-active = false or the reported state is
deactivating/removing/inactive; unhealthy when down with the management
node down for more than 120 minutes, or some drive unhealthy, or at least
one but not all drives marked should-be-active = false; healthy
otherwise. -/
def specDeriveHostState (now : Int) (host : hostInfo) : hostState :=
  if (host.drives ≠ [] ∧ ∀ d ∈ host.drives, d.shouldBeActive = false) ∨
      host.state = "DEACTIVATING" ∨ host.state = "REMOVING" ∨ host.state = "INACTIVE" then
    DEACTIVATING
  else if (host.status = "DOWN" ∧ ∃ node ∈ host.nodes, node.isManagement = true ∧
        node.status = "DOWN" ∧ now - node.lastFencingTime > 120) ∨
      (∃ d ∈ host.drives, d.status = "INACTIVE") ∨
      ((∃ d ∈ host.drives, d.shouldBeActive = false) ∧
        ¬ ∀ d ∈ host.drives, d.shouldBeActive = false) then
    UNHEALTHY
  else HEALTHY

/-- C2: `deriveHostState` applies the spec's three classification rules
in order with the first matching rule winning. -/
theorem deriveHostState_matches_spec (now : Int) (host : hostInfo) :
    deriveHostState now host = specDeriveHostState now host := by
  have hAnyIff : AnyOf host.state ["DEACTIVATING", "REMOVING", "INACTIVE"] = true ↔
      (host.state = "DEACTIVATING" ∨ host.state = "REMOVING" ∨
        host.state = "INACTIVE") := by
    rw [AnyOf_iff]; simp
  have hDownIff : (host.status == "DOWN" &&
      host.managementTimedOut unhealthyDeactivateTimeout now) = true ↔
      (host.status = "DOWN" ∧ ∃ node ∈ host.nodes, node.isManagement = true ∧
        node.status = "DOWN" ∧ now - node.lastFencingTime > 120) := by
    simp [managementTimedOut_iff, unhealthyDeactivateTimeout]
  have hDrvIff : (decide (host.numNotHealthyDrives > 0) ||
      host.anyDiskBeingRemoved) = true ↔
      ((∃ d ∈ host.drives, d.status = "INACTIVE") ∨
        ∃ d ∈ host.drives, d.shouldBeActive = false) := by
    simp only [Bool.or_eq_true, decide_eq_true_eq, gt_iff_lt,
      numNotHealthyDrives_pos_iff, anyDiskBeingRemoved_iff]
  rw [deriveHostState, specDeriveHostState]
  by_cases hall : host.drives ≠ [] ∧ ∀ d ∈ host.drives, d.shouldBeActive = false
  · rw [if_pos ((allDisksBeingRemoved_iff host).mpr hall), if_pos (Or.inl hall)]
  · have hallB : ¬ host.allDisksBeingRemoved = true := fun h =>
      hall ((allDisksBeingRemoved_iff host).mp h)
    rw [if_neg hallB]
    by_cases hstate : host.state = "DEACTIVATING" ∨ host.state = "REMOVING" ∨
        host.state = "INACTIVE"
    · rw [if_pos (hAnyIff.mpr hstate), if_pos (Or.inr hstate)]
    · have hspec1n : ¬ ((host.drives ≠ [] ∧ ∀ d ∈ host.drives,
            d.shouldBeActive = false) ∨
          host.state = "DEACTIVATING" ∨ host.state = "REMOVING" ∨
            host.state = "INACTIVE") := fun h => h.elim hall hstate
      have hanyn : ¬ (AnyOf host.state ["DEACTIVATING", "REMOVING", "INACTIVE"]
          = true) := fun h => hstate (hAnyIff.mp h)
      rw [if_neg hanyn, if_neg hspec1n]
      by_cases hdown : host.status = "DOWN" ∧ ∃ node ∈ host.nodes,
          node.isManagement = true ∧ node.status = "DOWN" ∧
            now - node.lastFencingTime > 120
      · rw [if_pos (hDownIff.mpr hdown), if_pos (Or.inl hdown)]
      · rw [if_neg (fun h => hdown (hDownIff.mp h))]
        by_cases hdrv : (∃ d ∈ host.drives, d.status = "INACTIVE") ∨
            ∃ d ∈ host.drives, d.shouldBeActive = false
        · rw [if_pos (hDrvIff.mpr hdrv)]
          have hspec2 : (host.status = "DOWN" ∧ ∃ node ∈ host.nodes,
                node.isManagement = true ∧ node.status = "DOWN" ∧
                  now - node.lastFencingTime > 120) ∨
              (∃ d ∈ host.drives, d.status = "INACTIVE") ∨
              ((∃ d ∈ host.drives, d.shouldBeActive = false) ∧
                ¬ ∀ d ∈ host.drives, d.shouldBeActive = false) := by
            rcases hdrv with h | h
            · exact Or.inr (Or.inl h)
            · refine Or.inr (Or.inr ⟨h, fun hforall => ?_⟩)
              rcases h with ⟨d, hd, _⟩
              exact hall ⟨fun hnil => by rw [hnil] at hd; exact (List.not_mem_nil d) hd,
                hforall⟩
          rw [if_pos hspec2]
        · rw [if_neg (fun h => hdrv (hDrvIff.mp h))]
          have hspec2n : ¬ ((host.status = "DOWN" ∧ ∃ node ∈ host.nodes,
                node.isManagement = true ∧ node.status = "DOWN" ∧
                  now - node.lastFencingTime > 120) ∨
              (∃ d ∈ host.drives, d.status = "INACTIVE") ∨
              ((∃ d ∈ host.drives, d.shouldBeActive = false) ∧
                ¬ ∀ d ∈ host.drives, d.shouldBeActive = false)) := by
            rintro (h | h | h)
            · exact hdown h
            · exact hdrv (Or.inl h)
            · exact hdrv (Or.inr h.1)
          rw [if_neg hspec2n]

/-- Witness for C9: a concrete driveless ACTIVE/UP host. -/
theorem driveless_active_up_healthy_witness :
    deriveHostState 0 (exHost HEALTHY) = HEALTHY ∧
    deriveHostState 0 (exHost HEALTHY) ≠ DEACTIVATING :=
  driveless_active_up_healthy 0 (exHost HEALTHY) rfl rfl rfl

/-! ## Claims about the tick as a whole -/

/-- A minimal concrete input: backend role, empty group. -/
def info0 : HostGroupInfoResponse :=
  { username := "u", password := "p", desiredCapacity := 0, instances := [],
    backendIps := [], role := "backend" }

/-- A healthy management plane with an empty cluster. -/
def envEmpty : RpcEnv :=
  { statusResp := .ok { ioStatus := "STARTED", upgrade := "" }
    hostListResp := .ok []
    driveListResp := .ok []
    nodeListResp := .ok []
    mutateResult := fun _ => .ok () }

/-- A management plane whose IO subsystem is not started. -/
def envGateClosed : RpcEnv :=
  { envEmpty with statusResp := .ok { ioStatus := "STOPPED", upgrade := "" } }

/-- An orphan drive: host id −1, INACTIVE. -/
def orphanDrive : Drive :=
  { uuid := "uuid-1", hostId := -1, status := "INACTIVE", shouldBeActive := false }

/-- An empty cluster except for one orphan drive; every mutating call
fails. -/
def envOrphan : RpcEnv :=
  { envEmpty with
    driveListResp := Except.ok [orphanDrive]
    mutateResult := fun _ => Except.error "boom" }

/-- C5: a gate-check rejection (IO status not STARTED, or an upgrade in
progress) aborts the tick with an error and zero mutating calls, and so
does any failure during snapshot assembly. -/
theorem snapshot_failure_aborts (now : Int) (env : RpcEnv)
    (info : HostGroupInfoResponse) :
    (∀ s, env.statusResp = .ok s → s.ioStatus ≠ "STARTED" ∨ s.upgrade ≠ "" →
      ∃ msg, Handler now env info = (.error msg, [])) ∧
    (∀ e, getSnapshot env info = .error e →
      Handler now env info = (.error e, [])) := by
  have herr : ∀ e, getSnapshot env info = .error e →
      Handler now env info = (.error e, []) := by
    intro e he
    unfold Handler
    rw [he]
  refine ⟨?_, herr⟩
  intro s hs hgate
  have hgateErr : ∃ msg, isAllowedToScale s = .error msg := by
    unfold isAllowedToScale
    by_cases h2 : s.ioStatus ≠ "STARTED"
    · exact ⟨_, by rw [if_pos h2]⟩
    · rcases hgate with h | h
      · exact absurd h h2
      · exact ⟨_, by rw [if_neg h2, if_pos h]⟩
  rcases hgateErr with ⟨msg, hmsg⟩
  have hsnap : getSnapshot env info = .error msg := by
    unfold getSnapshot
    simp only [hs, hmsg]
  exact ⟨msg, herr msg hsnap⟩

/-- Witness for C5: the closed-gate environment aborts with no mutating
calls. -/
theorem snapshot_failure_aborts_witness :
    ∃ msg, Handler 0 envGateClosed info0 = (.error msg, []) :=
  (snapshot_failure_aborts 0 envGateClosed info0).1
    { ioStatus := "STOPPED", upgrade := "" } rfl (Or.inl (by decide))

/-- C6: the engine is a pure function of its inputs — two runs over the
same management-plane responses and the same group input produce the same
terminate-candidate list, the same host-state list, and the same trace of
mutating calls. -/
theorem Handler_two_run_deterministic (now : Int) (env1 env2 : RpcEnv)
    (info1 info2 : HostGroupInfoResponse) (henv : env1 = env2)
    (hinfo : info1 = info2) (r1 r2 : ScaleResponse)
    (h1 : (Handler now env1 info1).1 = .ok r1)
    (h2 : (Handler now env2 info2).1 = .ok r2) :
    r1.toTerminate = r2.toTerminate ∧ r1.hosts = r2.hosts ∧
      (Handler now env1 info1).2 = (Handler now env2 info2).2 := by
  subst henv
  subst hinfo
  rw [h1] at h2
  injection h2 with h
  subst h
  exact ⟨rfl, rfl, rfl⟩

/-- Witness for C6: two runs on the empty cluster agree. -/
theorem Handler_two_run_deterministic_witness :
    ({ hosts := [], toTerminate := [], transientErrors := [] } : ScaleResponse).toTerminate
        = ({ hosts := [], toTerminate := [], transientErrors := [] } : ScaleResponse).toTerminate ∧
      ({ hosts := [], toTerminate := [], transientErrors := [] } : ScaleResponse).hosts
        = ({ hosts := [], toTerminate := [], transientErrors := [] } : ScaleResponse).hosts ∧
      (Handler 0 envEmpty info0).2 = (Handler 0 envEmpty info0).2 :=
  Handler_two_run_deterministic 0 envEmpty envEmpty info0 info0 rfl rfl
    { hosts := [], toTerminate := [], transientErrors := [] }
    { hosts := [], toTerminate := [], transientErrors := [] }
    rfl rfl

theorem removeDriveCall_calls (env : RpcEnv) (drive : Drive) :
    (removeDriveCall env drive).2 = [MutatingCall.removeDrive [drive.uuid]] := by
  unfold removeDriveCall
  cases h : env.mutateResult (MutatingCall.removeDrive [drive.uuid]) <;> simp [h]

theorem removeOldDrives_mem (env : RpcEnv) (drives : List Drive) (drive : Drive)
    (hmem : drive ∈ drives) (hid : drive.hostId = -1)
    (hst : drive.status = "INACTIVE") :
    MutatingCall.removeDrive [drive.uuid] ∈ (removeOldDrives env drives).2 := by
  induction drives with
  | nil => exact absurd hmem (List.not_mem_nil drive)
  | cons d rest ih =>
    simp only [removeOldDrives, List.mem_append]
    rcases List.mem_cons.mp hmem with heq | htail
    · subst heq
      have hcond : (drive.hostId == -1 && drive.status == "INACTIVE") = true := by
        rw [hid, hst]; rfl
      rw [if_pos hcond, removeDriveCall_calls]
      exact Or.inl (List.mem_singleton.mpr rfl)
    · exact Or.inr (ih htail)

/-- C7: every drive in the listing with owner −1 and INACTIVE status
receives a remove-drive call, independent of host processing. -/
theorem orphan_drive_removed (now : Int) (env : RpcEnv)
    (info : HostGroupInfoResponse) (hostsApiList : List (Int × Host))
    (driveApiList : List Drive) (nodeApiList : List Node)
    (hsnap : getSnapshot env info = .ok (hostsApiList, driveApiList, nodeApiList))
    (drive : Drive) (hmem : drive ∈ driveApiList) (hid : drive.hostId = -1)
    (hst : drive.status = "INACTIVE") :
    MutatingCall.removeDrive [drive.uuid] ∈ (Handler now env info).2 := by
  unfold Handler
  rw [hsnap]
  simp only [List.mem_append]
  exact Or.inl (Or.inr (removeOldDrives_mem env driveApiList drive hmem hid hst))

/-- Witness for C7: the orphan drive is removed although the in-scope,
inactive and forced-down host lists are all empty. -/
theorem orphan_drive_removed_witness :
    MutatingCall.removeDrive ["uuid-1"] ∈ (Handler 0 envOrphan info0).2 :=
  orphan_drive_removed 0 envOrphan info0 [] [orphanDrive] [] rfl orphanDrive
    (List.mem_singleton.mpr rfl) rfl rfl

theorem removeDriveCall_tagged (env : RpcEnv) (drive : Drive) (c : MutatingCall)
    (hc : c ∈ (removeDriveCall env drive).2) (e : String)
    (he : env.mutateResult c = .error e) :
    (opTag c ++ ":" ++ e) ∈ (removeDriveCall env drive).1 := by
  rw [removeDriveCall_calls] at hc
  have hc' := List.mem_singleton.mp hc
  subst hc'
  unfold removeDriveCall
  simp only [he]
  simp [opTag]

theorem removeDrivesOf_tagged (env : RpcEnv) (drives : List Drive)
    (c : MutatingCall) (hc : c ∈ (removeDrivesOf env drives).2) (e : String)
    (he : env.mutateResult c = .error e) :
    (opTag c ++ ":" ++ e) ∈ (removeDrivesOf env drives).1 := by
  induction drives with
  | nil => simp [removeDrivesOf] at hc
  | cons d rest ih =>
    simp only [removeDrivesOf, List.mem_append] at hc ⊢
    rcases hc with hc | hc
    · exact Or.inl (removeDriveCall_tagged env d c hc e he)
    · exact Or.inr (ih hc)

theorem removeInactiveHost_tagged (env : RpcEnv) (instances : List HgInstance)
    (host : hostInfo) (c : MutatingCall)
    (hc : c ∈ (removeInactiveHost env instances host).2.2) (e : String)
    (he : env.mutateResult c = .error e) :
    (opTag c ++ ":" ++ e) ∈ (removeInactiveHost env instances host).1 := by
  unfold removeInactiveHost at hc ⊢
  cases hres : env.mutateResult (MutatingCall.removeHost host.id) with
  | error e2 =>
    simp only [hres] at hc ⊢
    have hc' := List.mem_singleton.mp hc
    subst hc'
    rw [hres] at he
    injection he with h
    subst h
    simp [opTag]
  | ok u =>
    simp only [hres] at hc ⊢
    rcases List.mem_cons.mp hc with heq | htail
    · subst heq
      rw [hres] at he
      exact Except.noConfusion he
    · exact removeDrivesOf_tagged env host.drives c htail e he

theorem removeInactive_tagged (env : RpcEnv) (hosts : List hostInfo)
    (instances : List HgInstance) (c : MutatingCall)
    (hc : c ∈ (removeInactive env hosts instances).2.2) (e : String)
    (he : env.mutateResult c = .error e) :
    (opTag c ++ ":" ++ e) ∈ (removeInactive env hosts instances).1 := by
  induction hosts with
  | nil => simp [removeInactive] at hc
  | cons h rest ih =>
    simp only [removeInactive, List.mem_append] at hc ⊢
    rcases hc with hc | hc
    · exact Or.inl (removeInactiveHost_tagged env instances h c hc e he)
    · exact Or.inr (ih hc)

theorem removeOldDrives_tagged (env : RpcEnv) (drives : List Drive)
    (c : MutatingCall) (hc : c ∈ (removeOldDrives env drives).2) (e : String)
    (he : env.mutateResult c = .error e) :
    (opTag c ++ ":" ++ e) ∈ (removeOldDrives env drives).1 := by
  induction drives with
  | nil => simp [removeOldDrives] at hc
  | cons d rest ih =>
    simp only [removeOldDrives, List.mem_append] at hc ⊢
    rcases hc with hc | hc
    · left
      by_cases hcond : (d.hostId == -1 && d.status == "INACTIVE") = true
      · rw [if_pos hcond] at hc ⊢
        exact removeDriveCall_tagged env d c hc e he
      · rw [if_neg hcond] at hc
        simp at hc
    · exact Or.inr (ih hc)

theorem deactivateDrivesOf_tagged (env : RpcEnv) (drives : List Drive)
    (c : MutatingCall) (hc : c ∈ (deactivateDrivesOf env drives).2) (e : String)
    (he : env.mutateResult c = .error e) :
    (opTag c ++ ":" ++ e) ∈ (deactivateDrivesOf env drives).1 := by
  induction drives with
  | nil => simp [deactivateDrivesOf] at hc
  | cons d rest ih =>
    simp only [deactivateDrivesOf, List.mem_append] at hc ⊢
    rcases hc with hc | hc
    · left
      by_cases hsba : d.shouldBeActive = true
      · rw [if_pos hsba] at hc ⊢
        cases hres : env.mutateResult (MutatingCall.deactivateDrives [d.uuid]) with
        | ok u =>
          simp only [hres] at hc
          have hc' := List.mem_singleton.mp hc
          subst hc'
          rw [hres] at he
          exact Except.noConfusion he
        | error e2 =>
          simp only [hres] at hc ⊢
          have hc' := List.mem_singleton.mp hc
          subst hc'
          rw [hres] at he
          injection he with h
          subst h
          simp [opTag]
      · rw [if_neg hsba] at hc
        simp at hc
    · exact Or.inr (ih hc)

theorem deactivateHost_tagged (env : RpcEnv) (host : hostInfo) (c : MutatingCall)
    (hc : c ∈ (deactivateHost env host).2) (e : String)
    (he : env.mutateResult c = .error e) :
    (opTag c ++ ":" ++ e) ∈ (deactivateHost env host).1 := by
  simp only [deactivateHost, List.mem_append] at hc ⊢
  rcases hc with hc | hc
  · exact Or.inl (deactivateDrivesOf_tagged env host.drives c hc e he)
  · right
    by_cases hinact : host.allDrivesInactive = true
    · rw [if_pos hinact] at hc ⊢
      cases hres : env.mutateResult (MutatingCall.deactivateHosts [host.id]) with
      | ok u =>
        simp only [hres] at hc
        have hc' := List.mem_singleton.mp hc
        subst hc'
        rw [hres] at he
        exact Except.noConfusion he
      | error e2 =>
        simp only [hres] at hc ⊢
        have hc' := List.mem_singleton.mp hc
        subst hc'
        rw [hres] at he
        injection he with h
        subst h
        simp [opTag]
    · rw [if_neg hinact] at hc
      simp at hc

theorem deactivatePhase_tagged (env : RpcEnv) (hosts : List hostInfo)
    (c : MutatingCall) (hc : c ∈ (deactivatePhase env hosts).2) (e : String)
    (he : env.mutateResult c = .error e) :
    (opTag c ++ ":" ++ e) ∈ (deactivatePhase env hosts).1 := by
  induction hosts with
  | nil => simp [deactivatePhase] at hc
  | cons h rest ih =>
    simp only [deactivatePhase, List.mem_append] at hc ⊢
    rcases hc with hc | hc
    · exact Or.inl (deactivateHost_tagged env h c hc e he)
    · exact Or.inr (ih hc)

/-- C8: once a snapshot is obtained the tick never aborts — it returns a
normal response whose host list covers the whole sorted in-scope list —
and every failing mutating call leaves a transient error tagged with its
operation name. -/
theorem mutating_failures_tagged (now : Int) (env : RpcEnv)
    (info : HostGroupInfoResponse) (hostsApiList : List (Int × Host))
    (driveApiList : List Drive) (nodeApiList : List Node)
    (hsnap : getSnapshot env info = .ok (hostsApiList, driveApiList, nodeApiList)) :
    ∃ r, (Handler now env info).1 = .ok r ∧
      r.hosts.length =
        (inScopeList now info hostsApiList driveApiList nodeApiList).length ∧
      ∀ c ∈ (Handler now env info).2, ∀ e, env.mutateResult c = .error e →
        (opTag c ++ ":" ++ e) ∈ r.transientErrors := by
  unfold Handler
  rw [hsnap]
  refine ⟨_, rfl, ?_, ?_⟩
  · simp [List.length_map]
  · intro c hc e he
    simp only [List.mem_append] at hc ⊢
    rcases hc with (hc | hc) | hc
    · exact Or.inl (Or.inl (removeInactive_tagged env _ info.instances c hc e he))
    · exact Or.inl (Or.inr (removeOldDrives_tagged env driveApiList c hc e he))
    · exact Or.inr (deactivatePhase_tagged env _ c hc e he)

/-- Witness for C8: with every mutating call failing, the tick on the
orphan-drive cluster still returns a normal response and tags the
failures. -/
theorem mutating_failures_tagged_witness :
    ∃ r, (Handler 0 envOrphan info0).1 = .ok r ∧
      r.hosts.length = (inScopeList 0 info0 [] [orphanDrive] []).length ∧
      ∀ c ∈ (Handler 0 envOrphan info0).2, ∀ e,
        envOrphan.mutateResult c = .error e →
          (opTag c ++ ":" ++ e) ∈ r.transientErrors :=
  mutating_failures_tagged 0 envOrphan info0 [] [orphanDrive] [] rfl

end Wekactl
